import Mathlib

/-!
Verification of the scatter-gl interactive rendering and selection core.

The definitions below are shallow embeddings of the TypeScript source:

* picking-color encoding (`ScatterPlotVisualizerSprites.createGeometry`,
  `ScatterPlotVisualizer3DLabels.createColorBuffers`, both via
  `new THREE.Color(i)`) and the pixel decoding in
  `ScatterPlot.getPointIndicesFromBoundingBoxPickingTexture`;
* the camera / dimension state machine of `ScatterPlot`
  (`setDimensions`, `makeCamera`, `makeOrbitControls`);
* the two selection-resolution strategies of `ScatterPlot`
  (`getPointIndicesFromBoundingBox`,
  `getPointIndicesFromBoundingBoxPickingTexture`, `setNearestPointToMouse`);
* the visualizer set diffing of `ScatterPlot.setActiveVisualizers`;
* the `CollisionGrid` used by `ScatterPlotVisualizerCanvasLabels`
  (modelled from the specification, since the grid's own module is not part
  of the sources at hand).

JavaScript `number` arithmetic on coordinates is modelled with exact
rationals (`ℚ`); `Math.floor` becomes `Rat.floor` (the executable form of
the integer floor `⌊·⌋`, see `rat_floor_eq_floor`); fallible readback from
typed arrays follows the JavaScript semantics (reads past the end give
`undefined`, which bitwise operators coerce to 0 and arithmetic comparisons
reject as NaN).
-/

/-! ### Picking-color encoding and decoding -/

/-- Byte triple (r, g, b) produced by `new THREE.Color(i)` for a point index
`i`: `setHex` extracts the high, middle and low byte of the 24-bit value
(`hex >> 16 & 255`, `hex >> 8 & 255`, `hex & 255`).  This is the picking
color generated by `ScatterPlotVisualizerSprites.createGeometry` and
`ScatterPlotVisualizer3DLabels.createColorBuffers` (the float components are
these bytes divided by 255, and the GPU readback restores the bytes). -/
def pickingColorBytes (i : ℕ) : ℕ × ℕ × ℕ :=
  ((i >>> 16) &&& 255, (i >>> 8) &&& 255, i &&& 255)

/-- Decoding of one RGBA picking pixel into a point id, from
`ScatterPlot.getPointIndicesFromBoundingBoxPickingTexture`:
`(pixelBuffer[i*4] << 16) | (pixelBuffer[i*4+1] << 8) | pixelBuffer[i*4+2]`. -/
def decodePixelId (r g b : ℕ) : ℕ :=
  (r <<< 16) ||| (g <<< 8) ||| b

/-- The reserved "no point" (background) picking value: all-ones 0xFFFFFF. -/
def backgroundPickingId : ℕ := 0xffffff

/-! ### Camera / dimension state machine (`ScatterPlot`) -/

/-- Projection kind of the active three.js camera. -/
inductive CameraKind where
  | perspective
  | orthographic
deriving DecidableEq, Repr

/-- The `OrbitControls` fields the claims are about, as set by
`ScatterPlot.makeOrbitControls`. -/
structure OrbitControlsState where
  enableRotate : Bool
  autoRotate : Bool
deriving DecidableEq, Repr

/-- The dimension/camera fragment of `ScatterPlot` state. `dimensions` is a
JavaScript number, kept as `ℚ` so that non-integer arguments to
`setDimensions` are representable. -/
structure ScatterPlotCameraState where
  dimensions : ℚ
  cameraKind : CameraKind
  controls : OrbitControlsState
deriving DecidableEq, Repr

/-- `ScatterPlot.makeOrbitControls(camera, cameraIs3D)`: fresh controls with
`enableRotate = cameraIs3D` and `autoRotate = false`; stores the camera. -/
def makeOrbitControls (s : ScatterPlotCameraState) (kind : CameraKind)
    (cameraIs3D : Bool) : ScatterPlotCameraState :=
  { s with cameraKind := kind,
           controls := { enableRotate := cameraIs3D, autoRotate := false } }

/-- `ScatterPlot.makeCamera3D`: perspective camera, 3D orbit controls. -/
def makeCamera3D (s : ScatterPlotCameraState) : ScatterPlotCameraState :=
  makeOrbitControls s CameraKind.perspective true

/-- `ScatterPlot.makeCamera2D`: orthographic camera, 2D orbit controls. -/
def makeCamera2D (s : ScatterPlotCameraState) : ScatterPlotCameraState :=
  makeOrbitControls s CameraKind.orthographic false

/-- `ScatterPlot.recreateCamera` applied to
`makeDefaultCameraDef(this.dimensions)`, whose `orthographic` field is
`dimensions === 2`; this is what `ScatterPlot.makeCamera` does (the axes
helper handling is irrelevant to the camera/controls state). -/
def makeCamera (s : ScatterPlotCameraState) : ScatterPlotCameraState :=
  if s.dimensions = 2 then makeCamera2D s else makeCamera3D s

/-- `ScatterPlot.setDimensions(dimensions)`.  Returns the thrown error
message (if any) together with the state after the call; the `throw`
happens before any field is written. -/
def setDimensions (s : ScatterPlotCameraState) (d : ℚ) :
    Option String × ScatterPlotCameraState :=
  if d ≠ 2 ∧ d ≠ 3 then (some "dimensions must be 2 or 3", s)
  else if s.dimensions ≠ d then (none, makeCamera { s with dimensions := d })
  else (none, s)

/-- State after the `ScatterPlot` constructor, which runs
`setDimensions(3)` (a no-op, the field starts at 3) and then `makeCamera`,
yielding a perspective camera with rotation-enabled controls. -/
def initialCameraState : ScatterPlotCameraState :=
  makeCamera { dimensions := 3, cameraKind := CameraKind.perspective,
               controls := { enableRotate := true, autoRotate := false } }

/-- A sequence of `setDimensions` calls (thrown errors leave the state as it
was, matching an exception propagating out of the call). -/
def runSetDimensions (s : ScatterPlotCameraState) (ds : List ℚ) :
    ScatterPlotCameraState :=
  ds.foldl (fun s d => (setDimensions s d).2) s

/-- The camera and controls always match the stored dimensionality. -/
def cameraMatchesDimensions (s : ScatterPlotCameraState) : Prop :=
  (s.dimensions = 2 →
    s.cameraKind = CameraKind.orthographic ∧ s.controls.enableRotate = false) ∧
  (s.dimensions ≠ 2 →
    s.cameraKind = CameraKind.perspective ∧ s.controls.enableRotate = true)

/-! ### Selection resolution (`ScatterPlot`) -/

/-- `ScatterBoundingBox`: `(x, y)` is the bottom-left corner of the
rectangle in CSS pixels (screen `y` grows downward, so the rectangle spans
`[x, x + width] × [y - height, y]`). -/
structure ScatterBoundingBox where
  x : ℚ
  y : ℚ
  width : ℚ
  height : ℚ
deriving DecidableEq, Repr

/-- One RGBA pixel read back from the picking render target. -/
structure Rgba where
  r : ℕ
  g : ℕ
  b : ℕ
  a : ℕ
deriving DecidableEq, Repr

/-- Decoding of a read-back pixel into a picking id (source:
`(pixelBuffer[i*4] << 16) | (pixelBuffer[i*4+1] << 8) | pixelBuffer[i*4+2]`). -/
def decodeRgba (p : Rgba) : ℕ :=
  decodePixelId p.r p.g p.b

/-- The `ScatterPlot` state consulted by selection resolution: the flat
world-space position buffer (`worldSpacePointPositions`), the device pixel
ratio and canvas pixel size, the picking render target (its height and its
pixel contents, indexed by column and by row counted bottom-up as in WebGL
`readPixels`), and the camera's view-projection transform
(`THREE.Vector3.project`, world position to normalized device coords). -/
structure PickState where
  positions : List ℚ
  devicePixelRatio : ℚ
  canvasWidth : ℚ
  canvasHeight : ℚ
  pickingTextureHeight : ℤ
  pixelAt : ℤ → ℤ → Rgba
  project : ℚ → ℚ → ℚ → ℚ × ℚ

/-- `window.devicePixelRatio || 1`. -/
def PickState.dpr (s : PickState) : ℚ :=
  if s.devicePixelRatio = 0 then 1 else s.devicePixelRatio

/-- `pointCount = this.worldSpacePointPositions.length / 3` (JavaScript
division, hence a rational). -/
def PickState.pointCount (s : PickState) : ℚ :=
  (s.positions.length : ℚ) / 3

/-- `Math.floor(boundingBox.x * dpr)` (`Rat.floor` is the executable form
of the integer floor `⌊·⌋`; see `rat_floor_eq_floor` below). -/
def selX (s : PickState) (b : ScatterBoundingBox) : ℤ :=
  (b.x * s.dpr).floor

/-- `Math.floor(boundingBox.y * dpr)`. -/
def selY (s : PickState) (b : ScatterBoundingBox) : ℤ :=
  (b.y * s.dpr).floor

/-- `Math.max(Math.floor(boundingBox.width * dpr), 1)`. -/
def selW (s : PickState) (b : ScatterBoundingBox) : ℤ :=
  max (b.width * s.dpr).floor 1

/-- `Math.max(Math.floor(boundingBox.height * dpr), 1)`. -/
def selH (s : PickState) (b : ScatterBoundingBox) : ℤ :=
  max (b.height * s.dpr).floor 1

/-- Decoded id of the `i`-th pixel of the read-back rectangle: the buffer is
filled by `readRenderTargetPixels(pickingTexture, x, pickingTexture.height -
y, width, height, ...)`, row-major with rows counted upward from row
`pickingTexture.height - y`, so pixel `i` sits at column `x + i % width`,
row `pickingTexture.height - y + i / width`. -/
def readPixelId (s : PickState) (b : ScatterBoundingBox) (i : ℕ) : ℕ :=
  decodeRgba (s.pixelAt (selX s b + (i : ℤ) % selW s b)
    (s.pickingTextureHeight - selY s b + (i : ℤ) / selW s b))

/-- All decoded ids of the read-back rectangle, in buffer order. -/
def decodedIds (s : PickState) (b : ScatterBoundingBox) : List ℕ :=
  (List.range (selW s b * selH s b).toNat).map (readPixelId s b)

/-- The ids recorded in `pointIndicesSelection`: decoded ids that are
neither the background sentinel nor out of range
(`id !== 0xffffff && id < pointCount`). -/
def pickedIds (s : PickState) (b : ScatterBoundingBox) : List ℕ :=
  (List.range (selW s b * selH s b).toNat).filterMap fun i =>
    let id := readPixelId s b i
    if id ≠ backgroundPickingId ∧ (id : ℚ) < s.pointCount then some id
    else none

/-- `ScatterPlot.getPointIndicesFromBoundingBoxPickingTexture`: mark each
valid decoded id in a flag array of length `positions.length`, then emit the
flagged indices in increasing order. -/
def getPointIndicesFromBoundingBoxPickingTexture (s : PickState)
    (b : ScatterBoundingBox) : List ℕ :=
  (List.range s.positions.length).filter fun i => decide (i ∈ pickedIds s b)

/-- Canvas pixel coordinates of point `i` as computed by the CPU selection
pass: read three consecutive floats starting at `i * 3` (reads past the end
of the buffer give `undefined`, propagating NaN through the projection, so
no coordinate is produced), project through the camera, and map from
normalized device coordinates to canvas pixels
(`x = (sv.x + 1) * canvasWidth / 2`, `y = -(sv.y - 1) * canvasHeight / 2`). -/
def projectedPixel (s : PickState) (i : ℕ) : Option (ℚ × ℚ) :=
  match s.positions.get? (i * 3), s.positions.get? (i * 3 + 1),
      s.positions.get? (i * 3 + 2) with
  | some wx, some wy, some wz =>
    let sv := s.project wx wy wz
    some ((sv.1 + 1) * s.canvasWidth / 2, -(sv.2 - 1) * s.canvasHeight / 2)
  | _, _, _ => none

/-- The CPU pass membership test
(`x >= selectionX && x <= selectionX + selectionWidth && y <= selectionY &&
y >= selectionY - selectionHeight`); any comparison against NaN is false. -/
def inSelectionBox (s : PickState) (b : ScatterBoundingBox) (i : ℕ) : Bool :=
  match projectedPixel s i with
  | some p =>
    decide (((selX s b : ℤ) : ℚ) ≤ p.1) &&
      decide (p.1 ≤ ((selX s b + selW s b : ℤ) : ℚ)) &&
      decide (p.2 ≤ ((selY s b : ℤ) : ℚ)) &&
      decide (((selY s b - selH s b : ℤ) : ℚ) ≤ p.2)
  | none => false

/-- `ScatterPlot.getPointIndicesFromBoundingBox`: for a small (at most 2×2
device pixel) box defer to the picking texture; otherwise run the CPU
projection pass over the whole position buffer (the loop runs `i` up to
`positions.length`; indices past the point count read past the buffer and
are rejected by the NaN comparisons). -/
def getPointIndicesFromBoundingBox (s : PickState) (b : ScatterBoundingBox) :
    List ℕ :=
  if selW s b ≤ 2 ∧ selH s b ≤ 2 then
    getPointIndicesFromBoundingBoxPickingTexture s b
  else
    (List.range s.positions.length).filter fun i => inSelectionBox s b i

/-- `ScatterPlot.selectBoundingBox`: the index list handed to the select
callback. -/
def selectBoundingBox (s : PickState) (b : ScatterBoundingBox) : List ℕ :=
  getPointIndicesFromBoundingBox s b

/-- `ScatterPlot.setNearestPointToMouse`: resolve a 1×1 box at the cursor
through the picking texture and keep the first resulting index, if any
(`pointIndices.length ? pointIndices[0] : null`). -/
def setNearestPointToMouse (s : PickState) (offsetX offsetY : ℚ) : Option ℕ :=
  (getPointIndicesFromBoundingBoxPickingTexture s
    ⟨offsetX, offsetY, 1, 1⟩).head?

/-- Geometric containment of one selection rectangle in another, in CSS
pixel coordinates (`(x, y)` bottom-left, height extending upward on
screen). -/
def boxContainedIn (inner outer : ScatterBoundingBox) : Prop :=
  outer.x ≤ inner.x ∧ inner.x + inner.width ≤ outer.x + outer.width ∧
  inner.y ≤ outer.y ∧ outer.y - outer.height ≤ inner.y - inner.height

/-- Nesting of the floored device-pixel intervals actually tested by
selection resolution. -/
def devIntervalsNested (s : PickState) (inner outer : ScatterBoundingBox) :
    Prop :=
  selX s outer ≤ selX s inner ∧
  selX s inner + selW s inner ≤ selX s outer + selW s outer ∧
  selY s inner ≤ selY s outer ∧
  selY s outer - selH s outer ≤ selY s inner - selH s inner

/-- The picking surface is consistent with the camera projection: any pixel
that decodes to a valid point id was rasterized from that point, so the
point's projected canvas position lies within that pixel (column `c` covers
canvas x in `[c, c+1)`; bottom-up row `r` covers canvas y in
`[height - 1 - r, height - r)`). -/
def pickingConsistent (s : PickState) : Prop :=
  ∀ c r : ℤ,
    decodeRgba (s.pixelAt c r) ≠ backgroundPickingId →
    ((decodeRgba (s.pixelAt c r) : ℚ) < s.pointCount) →
    ∃ p, projectedPixel s (decodeRgba (s.pixelAt c r)) = some p ∧
      ((c : ℤ) : ℚ) ≤ p.1 ∧ p.1 < ((c : ℤ) : ℚ) + 1 ∧
      ((s.pickingTextureHeight - 1 - r : ℤ) : ℚ) ≤ p.2 ∧
      p.2 < ((s.pickingTextureHeight - r : ℤ) : ℚ)

/-- A freshly constructed plot: no dataset was ever supplied, so
`worldSpacePointPositions` is the empty buffer (the constructor's
`new Float32Array(0)`); the picking texture holds only background. -/
def noDatasetPickState : PickState where
  positions := []
  devicePixelRatio := 1
  canvasWidth := 800
  canvasHeight := 600
  pickingTextureHeight := 600
  pixelAt := fun _ _ => ⟨255, 255, 255, 255⟩
  project := fun _ _ _ => (0, 0)

/-! ### Visualizer set diffing (`ScatterPlot.setActiveVisualizers`) -/

/-- A visualizer: its stable identity tag (`id`) plus an object tag that
distinguishes distinct instances with the same id. -/
structure Visualizer where
  id : String
  tag : ℕ
deriving DecidableEq, Repr

/-- Protocol calls issued to visualizers by `setActiveVisualizers`. -/
inductive VisualizerEvent where
  | dispose (id : String)
  | setScene (id : String) (scene : ℕ)
  | onResize (id : String) (width height : ℚ)
  | onPointPositionsChanged (id : String) (positions : List ℚ)
deriving DecidableEq, Repr

/-- The `ScatterPlot` state read by `setActiveVisualizers`: the keyed
visualizer collection (a JavaScript `Map`, i.e. an insertion-ordered
association list keyed by visualizer id), the shared scene (an opaque
handle), the current layout size and the current position buffer. -/
structure VisualizerState where
  visualizers : List (String × Visualizer)
  scene : ℕ
  width : ℚ
  height : ℚ
  positions : List ℚ

/-- JavaScript `Map.prototype.set`: replace in place if the key exists,
otherwise append. -/
def mapSet (m : List (String × Visualizer)) (k : String) (v : Visualizer) :
    List (String × Visualizer) :=
  if m.any fun e => e.1 = k then
    m.map fun e => if e.1 = k then (k, v) else e
  else m ++ [(k, v)]

/-- The second loop of `setActiveVisualizers`: for each requested
visualizer, `this.visualizers.set(v.id, v)`, then `setScene(this.scene)`,
`onResize(this.width, this.height)` and — since `worldSpacePointPositions`
is always a (possibly empty) `Float32Array`, hence truthy —
`onPointPositionsChanged(this.worldSpacePointPositions)`. -/
def addVisualizers (s : VisualizerState) (m : List (String × Visualizer))
    (evs : List VisualizerEvent) : List Visualizer →
      List (String × Visualizer) × List VisualizerEvent
  | [] => (m, evs)
  | v :: rest =>
    addVisualizers s (mapSet m v.id v)
      (evs ++ [VisualizerEvent.setScene v.id s.scene,
        VisualizerEvent.onResize v.id s.width s.height,
        VisualizerEvent.onPointPositionsChanged v.id s.positions]) rest

/-- `ScatterPlot.setActiveVisualizers(visualizers)`: dispose and remove
every active visualizer whose id is not among the requested ids, then add
each requested visualizer and hand it the current scene, layout and
positions.  Returns the new state and the protocol calls issued. -/
def setActiveVisualizers (s : VisualizerState) (vs : List Visualizer) :
    VisualizerState × List VisualizerEvent :=
  let nextIds := vs.map Visualizer.id
  let disposed := s.visualizers.filter fun e => decide (e.2.id ∉ nextIds)
  let kept := s.visualizers.filter fun e => decide (e.2.id ∈ nextIds)
  let res := addVisualizers s kept
    (disposed.map fun e => VisualizerEvent.dispose e.2.id) vs
  ({ s with visualizers := res.1 }, res.2)

/-! ### Collision Grid (label declutter) -/

/-- Modelled from the spec: the `BoundingBox` of the label collision grid
(the grid's module `./label` is not among the sources at hand; only its
caller `ScatterPlotVisualizerCanvasLabels.makeLabels` is): an axis-aligned
rectangle in device-pixel screen space with low/high x and y bounds. -/
structure LabelBoundingBox where
  loX : ℚ
  hiX : ℚ
  loY : ℚ
  hiY : ℚ
deriving DecidableEq, Repr

/-- Closed-rectangle intersection of two label bounding boxes. -/
def boxesIntersect (a b : LabelBoundingBox) : Prop :=
  a.loX ≤ b.hiX ∧ b.loX ≤ a.hiX ∧ a.loY ≤ b.hiY ∧ b.loY ≤ a.hiY

instance (a b : LabelBoundingBox) : Decidable (boxesIntersect a b) := by
  unfold boxesIntersect
  infer_instance

/-- A genuine rectangle: low bounds at most high bounds. -/
def LabelBoundingBox.wellFormed (b : LabelBoundingBox) : Prop :=
  b.loX ≤ b.hiX ∧ b.loY ≤ b.hiY

instance (b : LabelBoundingBox) : Decidable b.wellFormed := by
  unfold LabelBoundingBox.wellFormed
  infer_instance

/-- Modelled from the spec: a uniform grid over the canvas's pixel bounds
with a configurable cell width/height; each cell records the committed
boxes registered in it.  Cell `(i, j)` covers
`[i·cellWidth, (i+1)·cellWidth] × [j·cellHeight, (j+1)·cellHeight]`. -/
structure CollisionGrid where
  cellWidth : ℚ
  cellHeight : ℚ
  cells : ℤ × ℤ → List LabelBoundingBox

/-- Horizontal indices of the cells a box's rectangle overlaps. -/
def cellRangeX (g : CollisionGrid) (b : LabelBoundingBox) : List ℤ :=
  let lo := (b.loX / g.cellWidth).floor
  let hi := (b.hiX / g.cellWidth).floor
  (List.range (hi - lo + 1).toNat).map fun k : ℕ => lo + (k : ℤ)

/-- Vertical indices of the cells a box's rectangle overlaps. -/
def cellRangeY (g : CollisionGrid) (b : LabelBoundingBox) : List ℤ :=
  let lo := (b.loY / g.cellHeight).floor
  let hi := (b.hiY / g.cellHeight).floor
  (List.range (hi - lo + 1).toNat).map fun k : ℕ => lo + (k : ℤ)

/-- The set of cells a box's rectangle overlaps (spec step 1). -/
def overlappingCells (g : CollisionGrid) (b : LabelBoundingBox) :
    List (ℤ × ℤ) :=
  (cellRangeX g b).product (cellRangeY g b)

/-- Modelled from the spec, `insert(box, testOnly)`: check every committed
box registered in an overlapping cell for rectangle intersection; on any
hit fail without mutating state; otherwise succeed, registering the box in
every overlapping cell when `testOnly` is false. -/
def CollisionGrid.insert (g : CollisionGrid) (b : LabelBoundingBox)
    (testOnly : Bool) : Bool × CollisionGrid :=
  let cs := overlappingCells g b
  if cs.any fun ij => (g.cells ij).any fun c => decide (boxesIntersect c b)
  then (false, g)
  else if testOnly then (true, g)
  else (true, { g with cells := fun ij =>
    if ij ∈ cs then b :: g.cells ij else g.cells ij })

/-- A grid with no committed boxes. -/
def emptyGrid (cw ch : ℚ) : CollisionGrid where
  cellWidth := cw
  cellHeight := ch
  cells := fun _ => []

/-- A sequence of commit-path (`testOnly = false`) inserts, recording each
box together with its result. -/
def runInserts (g : CollisionGrid) :
    List LabelBoundingBox → CollisionGrid × List (LabelBoundingBox × Bool)
  | [] => (g, [])
  | b :: rest =>
    let r := g.insert b false
    let rr := runInserts r.2 rest
    (rr.1, (b, r.1) :: rr.2)

/-- The boxes a run of inserts accepted (returned `true`). -/
def acceptedBoxes (results : List (LabelBoundingBox × Bool)) :
    List LabelBoundingBox :=
  (results.filter fun p => p.2).map Prod.fst

/-- Grid soundness invariant relative to the committed boxes `acc`: cell
contents come from `acc`, every committed box is well formed and registered
in all its overlapping cells, and committed boxes are pairwise
non-intersecting. -/
def gridOK (g : CollisionGrid) (acc : List LabelBoundingBox) : Prop :=
  (∀ ij c, c ∈ g.cells ij → c ∈ acc) ∧
  (∀ c ∈ acc, LabelBoundingBox.wellFormed c ∧
    ∀ ij ∈ overlappingCells g c, c ∈ g.cells ij) ∧
  List.Pairwise (fun a c => ¬ boxesIntersect a c) acc

/-- Concrete one-point state used by witnesses: a single point at the world
origin, projecting to canvas pixel (1, 1) of a 2×2 canvas; every picking
pixel decodes to id 0 (a valid index). -/
def onePointState : PickState where
  positions := [0, 0, 0]
  devicePixelRatio := 1
  canvasWidth := 2
  canvasHeight := 2
  pickingTextureHeight := 2
  pixelAt := fun _ _ => ⟨0, 0, 0, 255⟩
  project := fun _ _ _ => (0, 0)

/-- Concrete state for the rectangle-monotonicity analysis: one point at
the world origin projecting to canvas pixel (5.5, 7) of an 11×14 canvas;
the picking texture holds only background. -/
def cexState : PickState where
  positions := [0, 0, 0]
  devicePixelRatio := 1
  canvasWidth := 11
  canvasHeight := 14
  pickingTextureHeight := 14
  pixelAt := fun _ _ => ⟨255, 255, 255, 255⟩
  project := fun _ _ _ => (0, 0)

/-! ### Theorems: claim C1 -/

theorem pickingColorBytes_eq_divMod (i : ℕ) :
    pickingColorBytes i = (i / 65536 % 256, i / 256 % 256, i % 256) := by
  have h8 : (255 : ℕ) = 2 ^ 8 - 1 := by norm_num
  unfold pickingColorBytes
  rw [h8, Nat.and_pow_two_sub_one_eq_mod, Nat.and_pow_two_sub_one_eq_mod,
    Nat.and_pow_two_sub_one_eq_mod, Nat.shiftRight_eq_div_pow,
    Nat.shiftRight_eq_div_pow]

theorem decodePixelId_eq_add {g b : ℕ} (r : ℕ) (hg : g < 256) (hb : b < 256) :
    decodePixelId r g b = r * 65536 + g * 256 + b := by
  unfold decodePixelId
  have h1 : r <<< 16 ||| g <<< 8 = 2 ^ 16 * r + 2 ^ 8 * g := by
    rw [Nat.shiftLeft_eq, Nat.shiftLeft_eq, Nat.mul_comm g (2 ^ 8),
      Nat.mul_comm r (2 ^ 16), ← Nat.mul_add_lt_is_or (by omega) r]
  have h2 : 2 ^ 16 * r + 2 ^ 8 * g = 2 ^ 8 * (2 ^ 8 * r + g) := by ring
  have h3 : 2 ^ 8 * (2 ^ 8 * r + g) ||| b = 2 ^ 8 * (2 ^ 8 * r + g) + b := by
    rw [← Nat.mul_add_lt_is_or (by omega) (2 ^ 8 * r + g)]
  rw [h1, h2, h3]
  ring

theorem decodePixelId_bytes (i : ℕ) (h : i < 2 ^ 24) :
    decodePixelId (i / 65536 % 256) (i / 256 % 256) (i % 256) = i := by
  rw [decodePixelId_eq_add _ (Nat.mod_lt _ (by omega)) (Nat.mod_lt _ (by omega))]
  omega

/-- C1: Picking ID round-trip.  For every point count `N < 2^24 - 1` and
index `i < N`, encoding `i` as the 24-bit RGB picking color and decoding the
resulting pixel via `(r << 16) | (g << 8) | b` reproduces `i`, and no valid
index encodes to the reserved all-ones sentinel `0xFFFFFF`
(`pickingColorBytes i ≠ (255, 255, 255)`, whose decoding is the sentinel). -/
theorem pickingColor_roundTrip (N i : ℕ) (hN : N < 2 ^ 24 - 1) (hi : i < N) :
    decodePixelId (pickingColorBytes i).1 (pickingColorBytes i).2.1
        (pickingColorBytes i).2.2 = i ∧
    pickingColorBytes i ≠ (255, 255, 255) := by
  have hlt : i < 2 ^ 24 := by omega
  have hrt : decodePixelId (pickingColorBytes i).1 (pickingColorBytes i).2.1
      (pickingColorBytes i).2.2 = i := by
    rw [pickingColorBytes_eq_divMod]
    exact decodePixelId_bytes i hlt
  refine ⟨hrt, fun hsent => ?_⟩
  rw [hsent] at hrt
  have : decodePixelId 255 255 255 = 16777215 := by decide
  simp only [this] at hrt
  omega

/-- Witness for C1 at `N = 3`, `i = 2`. -/
theorem pickingColor_roundTrip_witness :
    decodePixelId (pickingColorBytes 2).1 (pickingColorBytes 2).2.1
        (pickingColorBytes 2).2.2 = 2 ∧
    pickingColorBytes 2 ≠ (255, 255, 255) :=
  pickingColor_roundTrip 3 2 (by decide) (by decide)

/-! ### Theorems: claims C6 and C7 -/

theorem makeCamera_matches (s : ScatterPlotCameraState) :
    cameraMatchesDimensions (makeCamera s) := by
  unfold cameraMatchesDimensions makeCamera makeCamera2D makeCamera3D
    makeOrbitControls
  by_cases h : s.dimensions = 2 <;> simp [h]

theorem setDimensions_preserves_matches (s : ScatterPlotCameraState) (d : ℚ)
    (h : cameraMatchesDimensions s) :
    cameraMatchesDimensions (setDimensions s d).2 := by
  unfold setDimensions
  by_cases h1 : d ≠ 2 ∧ d ≠ 3
  · simpa [h1]
  · by_cases h2 : s.dimensions ≠ d
    · simpa [h1, h2] using makeCamera_matches { s with dimensions := d }
    · simpa [h1, h2]

theorem runSetDimensions_preserves (ds : List ℚ) :
    ∀ s, cameraMatchesDimensions s →
      cameraMatchesDimensions (runSetDimensions s ds) := by
  induction ds with
  | nil => intro s h; simpa [runSetDimensions] using h
  | cons d ds ih =>
    intro s h
    show cameraMatchesDimensions (runSetDimensions (setDimensions s d).2 ds)
    exact ih _ (setDimensions_preserves_matches s d h)

theorem makeCamera_dimensions (s : ScatterPlotCameraState) :
    (makeCamera s).dimensions = s.dimensions := by
  unfold makeCamera makeCamera2D makeCamera3D makeOrbitControls
  split <;> rfl

theorem setDimensions_dims_eq (s : ScatterPlotCameraState) (d : ℚ)
    (hd : d = 2 ∨ d = 3) : (setDimensions s d).2.dimensions = d := by
  unfold setDimensions
  have h : ¬(d ≠ 2 ∧ d ≠ 3) := by rcases hd with h | h <;> simp [h]
  rw [if_neg h]
  by_cases h2 : s.dimensions ≠ d
  · rw [if_pos h2, makeCamera_dimensions]
  · rw [if_neg h2]
    push_neg at h2
    exact h2

theorem setDimensions_change (s : ScatterPlotCameraState) (d : ℚ)
    (hd : d = 2 ∨ d = 3) (hne : s.dimensions ≠ d) :
    (setDimensions s d).2 = makeCamera { s with dimensions := d } := by
  unfold setDimensions
  have h : ¬(d ≠ 2 ∧ d ≠ 3) := by rcases hd with h | h <;> simp [h]
  rw [if_neg h, if_pos hne]

/-- C6: Dimension-switch invariant.  Starting from any state reachable by
`setDimensions` calls after construction, calling `setDimensions 2` and then
`setDimensions 3` leaves a perspective camera with orbit rotation enabled on
the controls, and after any `setDimensions 2` call the camera is
orthographic with orbit rotation disabled. -/
theorem setDimensions_dimension_switch (ds : List ℚ) :
    ((setDimensions (setDimensions
        (runSetDimensions initialCameraState ds) 2).2 3).2.cameraKind =
          CameraKind.perspective ∧
      (setDimensions (setDimensions
        (runSetDimensions initialCameraState ds) 2).2 3).2.controls.enableRotate
          = true) ∧
    ((setDimensions (runSetDimensions initialCameraState ds) 2).2.cameraKind =
          CameraKind.orthographic ∧
      (setDimensions (runSetDimensions initialCameraState ds)
          2).2.controls.enableRotate = false) := by
  have h := runSetDimensions_preserves ds initialCameraState
    (makeCamera_matches _)
  set s := runSetDimensions initialCameraState ds with hs
  have h2 : cameraMatchesDimensions (setDimensions s 2).2 :=
    setDimensions_preserves_matches s 2 h
  have hdim2 : (setDimensions s 2).2.dimensions = 2 :=
    setDimensions_dims_eq s 2 (Or.inl rfl)
  have hortho := h2.1 hdim2
  refine ⟨?_, hortho⟩
  have h3 : (setDimensions (setDimensions s 2).2 3).2 =
      makeCamera { (setDimensions s 2).2 with dimensions := 3 } :=
    setDimensions_change _ 3 (Or.inr rfl) (by rw [hdim2]; norm_num)
  rw [h3]
  have hm := makeCamera_matches { (setDimensions s 2).2 with dimensions := 3 }
  exact hm.2 (by rw [makeCamera_dimensions]; norm_num)

/-- C7: `setDimensions(d)` throws a `RangeError` exactly when `d` is neither
2 nor 3, and a throwing call leaves the state (dimensionality, camera,
controls) unchanged. -/
theorem setDimensions_rangeError (s : ScatterPlotCameraState) (d : ℚ) :
    ((setDimensions s d).1.isSome ↔ d ≠ 2 ∧ d ≠ 3) ∧
    (d ≠ 2 ∧ d ≠ 3 →
      setDimensions s d = (some "dimensions must be 2 or 3", s)) := by
  unfold setDimensions
  by_cases h : d ≠ 2 ∧ d ≠ 3
  · simp [h]
  · by_cases h2 : s.dimensions ≠ d <;> simp [h, h2]

/-- Witness for C7: `setDimensions (5/2)` throws and leaves the initial
state unchanged; `5/2 ≠ 2 ∧ 5/2 ≠ 3` holds. -/
theorem setDimensions_rangeError_witness :
    ((setDimensions initialCameraState (5/2)).1.isSome ↔
      (5/2 : ℚ) ≠ 2 ∧ (5/2 : ℚ) ≠ 3) ∧
    setDimensions initialCameraState (5/2) =
      (some "dimensions must be 2 or 3", initialCameraState) :=
  ⟨(setDimensions_rangeError initialCameraState (5/2)).1,
    (setDimensions_rangeError initialCameraState (5/2)).2
      ⟨by norm_num, by norm_num⟩⟩

/-! ### Theorems: selection resolution (claims C2, C4, C8, C10) -/

theorem filter_range_extend (p : ℕ → Bool) (N M : ℕ)
    (h : ∀ i, N ≤ i → p i = false) :
    (List.range (N + M)).filter p = (List.range N).filter p := by
  rw [List.range_add, List.filter_append]
  have h2 : ((List.range M).map (N + ·)).filter p = [] := by
    rw [List.filter_eq_nil_iff]
    intro a ha
    rcases List.mem_map.mp ha with ⟨j, _, rfl⟩
    simp [h _ (Nat.le_add_right N j)]
  rw [h2, List.append_nil]

theorem projectedPixel_none (s : PickState) (i : ℕ)
    (h : s.positions.length ≤ i * 3) : projectedPixel s i = none := by
  unfold projectedPixel
  rw [List.get?_len_le h, List.get?_len_le (by omega), List.get?_len_le (by omega)]

theorem inSelectionBox_eq_false (s : PickState) (b : ScatterBoundingBox)
    (i : ℕ) (h : s.positions.length ≤ i * 3) :
    inSelectionBox s b i = false := by
  unfold inSelectionBox
  rw [projectedPixel_none s i h]

theorem pointCount_eq (s : PickState) (N : ℕ)
    (hlen : s.positions.length = 3 * N) : s.pointCount = (N : ℚ) := by
  unfold PickState.pointCount
  rw [hlen]
  push_cast
  ring

/-- C2: for a selection box whose device-pixel width or height exceeds 2,
`getPointIndicesFromBoundingBox` equals exactly the filter over all indices
`i ∈ [0, N)` of the test "the camera-projected canvas position of point `i`
lies inside the box"; no rendering or visibility information is consulted,
so occluded points are included. -/
theorem cpu_rectangle_selection_exact (s : PickState) (b : ScatterBoundingBox)
    (N : ℕ) (hlen : s.positions.length = 3 * N)
    (hbig : 2 < selW s b ∨ 2 < selH s b) :
    getPointIndicesFromBoundingBox s b =
      (List.range N).filter fun i => inSelectionBox s b i := by
  unfold getPointIndicesFromBoundingBox
  rw [if_neg (by omega)]
  have h3 : s.positions.length = N + 2 * N := by omega
  rw [h3, filter_range_extend]
  intro i hi
  exact inSelectionBox_eq_false s b i (by omega)

/-- Witness for C2: the one-point state, box `(0, 5, 5, 5)` (device-pixel
width 5 > 2); the single point projects to pixel (1, 1), inside the box. -/
theorem cpu_rectangle_selection_exact_witness :
    onePointState.positions.length = 3 * 1 ∧
    (2 < selW onePointState ⟨0, 5, 5, 5⟩ ∨
      2 < selH onePointState ⟨0, 5, 5, 5⟩) ∧
    getPointIndicesFromBoundingBox onePointState ⟨0, 5, 5, 5⟩ =
      (List.range 1).filter fun i =>
        inSelectionBox onePointState ⟨0, 5, 5, 5⟩ i :=
  ⟨by decide, Or.inl (by norm_num [selW, PickState.dpr, onePointState,
      Rat.floor_def']),
    cpu_rectangle_selection_exact onePointState ⟨0, 5, 5, 5⟩ 1 (by decide)
      (Or.inl (by norm_num [selW, PickState.dpr, onePointState,
        Rat.floor_def']))⟩

theorem filterMap_ite_eq (g : ℕ → ℕ) (p : ℕ → Prop) [DecidablePred p]
    (l : List ℕ) :
    (l.filterMap fun i => if p (g i) then some (g i) else none) =
      (l.map g).filter fun id => decide (p id) := by
  induction l with
  | nil => rfl
  | cons a l ih =>
    by_cases h : p (g a)
    · simp [List.filterMap_cons, List.filter_cons, h, ih]
    · simp [List.filterMap_cons, List.filter_cons, h, ih]

theorem pickedIds_eq_filter (s : PickState) (b : ScatterBoundingBox) :
    pickedIds s b = (decodedIds s b).filter fun id =>
      decide (id ≠ backgroundPickingId ∧ (id : ℚ) < s.pointCount) := by
  unfold pickedIds decodedIds
  exact filterMap_ite_eq (readPixelId s b)
    (fun id => id ≠ backgroundPickingId ∧ (id : ℚ) < s.pointCount) _

theorem mem_pickedIds_iff (s : PickState) (b : ScatterBoundingBox) (id : ℕ) :
    id ∈ pickedIds s b ↔ id ∈ decodedIds s b ∧
      id ≠ backgroundPickingId ∧ (id : ℚ) < s.pointCount := by
  rw [pickedIds_eq_filter, List.mem_filter]
  simp

theorem mem_pickingTexture_result (s : PickState) (b : ScatterBoundingBox)
    (i : ℕ) :
    i ∈ getPointIndicesFromBoundingBoxPickingTexture s b ↔
      i < s.positions.length ∧ i ∈ pickedIds s b := by
  unfold getPointIndicesFromBoundingBoxPickingTexture
  rw [List.mem_filter, List.mem_range]
  simp

theorem lt_length_of_lt_pointCount (s : PickState) (id : ℕ)
    (h : (id : ℚ) < s.pointCount) : id < s.positions.length := by
  unfold PickState.pointCount at h
  by_contra hle
  push_neg at hle
  have h1 : (s.positions.length : ℚ) ≤ (id : ℚ) := by exact_mod_cast hle
  have h2 : (0 : ℚ) ≤ (s.positions.length : ℚ) := by positivity
  have h3 : (s.positions.length : ℚ) / 3 ≤ (s.positions.length : ℚ) := by
    linarith
  linarith

theorem lt_of_inSelectionBox (s : PickState) (b : ScatterBoundingBox)
    (i N : ℕ) (hlen : s.positions.length = 3 * N)
    (h : inSelectionBox s b i = true) : i < N := by
  by_contra hN
  push_neg at hN
  rw [inSelectionBox_eq_false s b i (by omega)] at h
  cases h

/-- C10: both selection-resolution strategies return a strictly increasing,
duplicate-free list of indices inside `[0, N)`; the picking-texture strategy
never reports the background sentinel or an id at or past the point count. -/
theorem selection_result_invariant (s : PickState) (b : ScatterBoundingBox)
    (N : ℕ) (hlen : s.positions.length = 3 * N) :
    (List.Pairwise (· < ·) (getPointIndicesFromBoundingBoxPickingTexture s b) ∧
      ∀ i ∈ getPointIndicesFromBoundingBoxPickingTexture s b,
        i < N ∧ i ≠ backgroundPickingId) ∧
    (List.Pairwise (· < ·) (getPointIndicesFromBoundingBox s b) ∧
      ∀ i ∈ getPointIndicesFromBoundingBox s b, i < N) := by
  have hpc := pointCount_eq s N hlen
  have hpick : ∀ i ∈ getPointIndicesFromBoundingBoxPickingTexture s b,
      i < N ∧ i ≠ backgroundPickingId := by
    intro i hi
    rcases (mem_pickingTexture_result s b i).mp hi with ⟨_, hmem⟩
    rcases (mem_pickedIds_iff s b i).mp hmem with ⟨_, hbg, hlt⟩
    rw [hpc] at hlt
    exact ⟨by exact_mod_cast hlt, hbg⟩
  have hsorted : List.Pairwise (· < ·)
      (getPointIndicesFromBoundingBoxPickingTexture s b) := by
    unfold getPointIndicesFromBoundingBoxPickingTexture
    exact (List.pairwise_lt_range _).filter _
  refine ⟨⟨hsorted, hpick⟩, ?_, ?_⟩
  · unfold getPointIndicesFromBoundingBox
    split
    · exact hsorted
    · exact (List.pairwise_lt_range _).filter _
  · intro i hi
    unfold getPointIndicesFromBoundingBox at hi
    split at hi
    · exact (hpick i hi).1
    · exact lt_of_inSelectionBox s b i N hlen (List.mem_filter.mp hi).2

/-- Witness for C10 at the one-point state. -/
theorem selection_result_invariant_witness :
    onePointState.positions.length = 3 * 1 ∧
    ((List.Pairwise (· < ·)
        (getPointIndicesFromBoundingBoxPickingTexture onePointState
          ⟨0, 5, 5, 5⟩) ∧
      ∀ i ∈ getPointIndicesFromBoundingBoxPickingTexture onePointState
          ⟨0, 5, 5, 5⟩, i < 1 ∧ i ≠ backgroundPickingId) ∧
    (List.Pairwise (· < ·)
        (getPointIndicesFromBoundingBox onePointState ⟨0, 5, 5, 5⟩) ∧
      ∀ i ∈ getPointIndicesFromBoundingBox onePointState ⟨0, 5, 5, 5⟩,
        i < 1)) :=
  ⟨by decide, selection_result_invariant onePointState ⟨0, 5, 5, 5⟩ 1 (by decide)⟩

theorem rat_floor_eq_floor (q : ℚ) : q.floor = ⌊q⌋ :=
  (Rat.floor_def' q).trans Rat.floor_def.symm

theorem pickingTexture_result_nil_iff (s : PickState) (b : ScatterBoundingBox) :
    getPointIndicesFromBoundingBoxPickingTexture s b = [] ↔
      pickedIds s b = [] := by
  constructor
  · intro h
    by_contra hne
    rcases List.exists_mem_of_ne_nil _ hne with ⟨id, hid⟩
    have hm := (mem_pickedIds_iff s b id).mp hid
    have hlt := lt_length_of_lt_pointCount s id hm.2.2
    have hmem : id ∈ getPointIndicesFromBoundingBoxPickingTexture s b :=
      (mem_pickingTexture_result s b id).mpr ⟨hlt, hid⟩
    rw [h] at hmem
    cases hmem
  · intro h
    unfold getPointIndicesFromBoundingBoxPickingTexture
    rw [List.filter_eq_nil_iff]
    intro a _
    simp [h]

/-- C4: Small-region strategy.  When the device-pixel selection width and
height are both at most 2, `getPointIndicesFromBoundingBox` resolves through
the picking-texture read-back (the CPU projection pass over the position
buffer is not run); hover/click resolution with a 1×1 box at the cursor is
the first entry of the picking-texture result, which is none exactly when
every read-back pixel decodes to the background sentinel (or to a value at
or past the point count, which is equally discarded), and otherwise is a
non-background decoded index of the read-back rectangle. -/
theorem small_region_strategy (s : PickState) (b : ScatterBoundingBox)
    (ox oy : ℚ) (hsmall : selW s b ≤ 2 ∧ selH s b ≤ 2) :
    getPointIndicesFromBoundingBox s b =
      getPointIndicesFromBoundingBoxPickingTexture s b ∧
    setNearestPointToMouse s ox oy =
      (getPointIndicesFromBoundingBoxPickingTexture s ⟨ox, oy, 1, 1⟩).head? ∧
    (setNearestPointToMouse s ox oy = none ↔
      ∀ id ∈ decodedIds s ⟨ox, oy, 1, 1⟩,
        id = backgroundPickingId ∨ ¬((id : ℚ) < s.pointCount)) ∧
    ∀ i, setNearestPointToMouse s ox oy = some i →
      i ∈ decodedIds s ⟨ox, oy, 1, 1⟩ ∧ i ≠ backgroundPickingId ∧
        (i : ℚ) < s.pointCount := by
  refine ⟨?_, rfl, ?_, ?_⟩
  · unfold getPointIndicesFromBoundingBox
    rw [if_pos hsmall]
  · unfold setNearestPointToMouse
    rw [List.head?_eq_none_iff, pickingTexture_result_nil_iff,
      pickedIds_eq_filter, List.filter_eq_nil_iff]
    constructor
    · intro h id hid
      have := h id hid
      simp only [decide_eq_true_eq, not_and_or, not_not] at this
      tauto
    · intro h id hid
      have := h id hid
      simp only [decide_eq_true_eq, not_and_or, not_not]
      tauto
  · intro i hi
    unfold setNearestPointToMouse at hi
    have hmem := List.mem_of_mem_head? hi
    rcases (mem_pickingTexture_result s _ i).mp hmem with ⟨_, hp⟩
    exact (mem_pickedIds_iff s _ i).mp hp

/-- Witness for C4: the one-point state with a 1×1 box (device-pixel sizes
are both 1 ≤ 2); the single picking pixel decodes to index 0. -/
theorem small_region_strategy_witness :
    (selW onePointState ⟨1, 1, 1, 1⟩ ≤ 2 ∧ selH onePointState ⟨1, 1, 1, 1⟩ ≤ 2) ∧
    (getPointIndicesFromBoundingBox onePointState ⟨1, 1, 1, 1⟩ =
      getPointIndicesFromBoundingBoxPickingTexture onePointState ⟨1, 1, 1, 1⟩ ∧
    setNearestPointToMouse onePointState 1 1 =
      (getPointIndicesFromBoundingBoxPickingTexture onePointState
        ⟨1, 1, 1, 1⟩).head? ∧
    (setNearestPointToMouse onePointState 1 1 = none ↔
      ∀ id ∈ decodedIds onePointState ⟨1, 1, 1, 1⟩,
        id = backgroundPickingId ∨ ¬((id : ℚ) < onePointState.pointCount)) ∧
    ∀ i, setNearestPointToMouse onePointState 1 1 = some i →
      i ∈ decodedIds onePointState ⟨1, 1, 1, 1⟩ ∧ i ≠ backgroundPickingId ∧
        (i : ℚ) < onePointState.pointCount) := by
  have hsmall : selW onePointState ⟨1, 1, 1, 1⟩ ≤ 2 ∧
      selH onePointState ⟨1, 1, 1, 1⟩ ≤ 2 := by
    constructor <;>
      norm_num [selW, selH, PickState.dpr, onePointState, Rat.floor_def']
  exact ⟨hsmall, small_region_strategy onePointState ⟨1, 1, 1, 1⟩ 1 1 hsmall⟩

/-- C8 counterexample: resolving a selection box on a freshly constructed
plot (no dataset ever supplied, so the position buffer is empty) does not
raise any error — `selectBoundingBox` is total and hands the select callback
the empty index list. -/
theorem select_before_dataset_counterexample :
    selectBoundingBox noDatasetPickState ⟨10, 20, 30, 40⟩ = [] := by
  unfold selectBoundingBox getPointIndicesFromBoundingBox
    getPointIndicesFromBoundingBoxPickingTexture
  split <;> simp [noDatasetPickState]

/-- C8 (amended): resolving a selection bounding box before any dataset has
been supplied yields the empty selection (a benign empty result passed to
the select callback); no error is raised. -/
theorem select_before_dataset_empty (s : PickState) (b : ScatterBoundingBox)
    (h : s.positions = []) : selectBoundingBox s b = [] := by
  unfold selectBoundingBox getPointIndicesFromBoundingBox
    getPointIndicesFromBoundingBoxPickingTexture
  rw [h]
  split <;> simp

/-- Witness for the amended C8. -/
theorem select_before_dataset_empty_witness :
    noDatasetPickState.positions = [] ∧
    selectBoundingBox noDatasetPickState ⟨0, 0, 3, 3⟩ = [] :=
  ⟨rfl, select_before_dataset_empty noDatasetPickState ⟨0, 0, 3, 3⟩ rfl⟩

/-! ### Theorems: claim C9 -/

theorem mapSet_keys_eq_of_mem (m : List (String × Visualizer)) (k : String)
    (v : Visualizer) (h : m.any (fun e => e.1 = k) = true) :
    (mapSet m k v).map Prod.fst = m.map Prod.fst := by
  unfold mapSet
  rw [if_pos h, List.map_map]
  apply List.map_congr_left
  intro e _
  by_cases he : e.1 = k
  · simp [he]
  · simp [he]

theorem mem_keys_mapSet (m : List (String × Visualizer)) (k k' : String)
    (v : Visualizer) :
    k' ∈ (mapSet m k v).map Prod.fst ↔ k' ∈ m.map Prod.fst ∨ k' = k := by
  by_cases h : m.any (fun e => e.1 = k) = true
  · rw [mapSet_keys_eq_of_mem m k v h]
    rcases List.any_eq_true.mp h with ⟨e, he, hek⟩
    constructor
    · exact Or.inl
    · rintro (h1 | rfl)
      · exact h1
      · exact List.mem_map.mpr ⟨e, he, of_decide_eq_true hek⟩
  · unfold mapSet
    rw [if_neg h, List.map_append]
    simp

theorem mapSet_keys_nodup (m : List (String × Visualizer)) (k : String)
    (v : Visualizer) (h : (m.map Prod.fst).Nodup) :
    ((mapSet m k v).map Prod.fst).Nodup := by
  by_cases hmem : m.any (fun e => e.1 = k) = true
  · rw [mapSet_keys_eq_of_mem m k v hmem]
    exact h
  · unfold mapSet
    rw [if_neg hmem, List.map_append]
    refine List.Nodup.append h (by simp) ?_
    intro a ha hb
    simp only [List.map_cons, List.map_nil, List.mem_singleton] at hb
    subst hb
    rcases List.mem_map.mp ha with ⟨e, he, hek⟩
    exact hmem (List.any_eq_true.mpr ⟨e, he, decide_eq_true hek⟩)

theorem addVisualizers_keys_nodup (s : VisualizerState) (vs : List Visualizer) :
    ∀ m evs, ((m : List (String × Visualizer)).map Prod.fst).Nodup →
      ((addVisualizers s m evs vs).1.map Prod.fst).Nodup := by
  induction vs with
  | nil => intro m evs h; exact h
  | cons v rest ih =>
    intro m evs h
    exact ih _ _ (mapSet_keys_nodup m v.id v h)

theorem mem_keys_addVisualizers (s : VisualizerState) (vs : List Visualizer)
    (k : String) :
    ∀ m evs, k ∈ (addVisualizers s m evs vs).1.map Prod.fst ↔
      k ∈ m.map Prod.fst ∨ k ∈ vs.map Visualizer.id := by
  induction vs with
  | nil => intro m evs; simp [addVisualizers]
  | cons v rest ih =>
    intro m evs
    show k ∈ (addVisualizers s (mapSet m v.id v) _ rest).1.map Prod.fst ↔ _
    rw [ih]
    rw [mem_keys_mapSet]
    simp only [List.map_cons, List.mem_cons]
    tauto

theorem addVisualizers_events_mono (s : VisualizerState) (vs : List Visualizer)
    (e : VisualizerEvent) :
    ∀ m evs, e ∈ evs → e ∈ (addVisualizers s m evs vs).2 := by
  induction vs with
  | nil => intro m evs h; exact h
  | cons v rest ih =>
    intro m evs h
    exact ih _ _ (List.mem_append_left _ h)

theorem addVisualizers_events_of_mem (s : VisualizerState)
    (vs : List Visualizer) (v : Visualizer) (hv : v ∈ vs) :
    ∀ m evs,
      VisualizerEvent.setScene v.id s.scene ∈ (addVisualizers s m evs vs).2 ∧
      VisualizerEvent.onResize v.id s.width s.height ∈
        (addVisualizers s m evs vs).2 ∧
      VisualizerEvent.onPointPositionsChanged v.id s.positions ∈
        (addVisualizers s m evs vs).2 := by
  induction vs with
  | nil => cases hv
  | cons w rest ih =>
    intro m evs
    rcases List.mem_cons.mp hv with rfl | hv2
    · refine ⟨?_, ?_, ?_⟩ <;>
        exact addVisualizers_events_mono s rest _ _ _
          (List.mem_append_right _ (by simp))
    · exact ih hv2 _ _

/-- C9: Visualizer set diffing.  After `setActiveVisualizers(vs)`, the
active collection holds exactly one entry per distinct id in `vs`; every
previously active visualizer whose id is not requested received `dispose()`
and is gone from the collection; and every requested visualizer received
`setScene` with the shared scene, `onResize` with the current width and
height, and `onPointPositionsChanged` with the current position buffer. -/
theorem setActiveVisualizers_diff (s : VisualizerState) (vs : List Visualizer)
    (hnodup : (s.visualizers.map Prod.fst).Nodup)
    (hkeys : ∀ e ∈ s.visualizers, (e : String × Visualizer).2.id = e.1) :
    (((setActiveVisualizers s vs).1.visualizers.map Prod.fst).Nodup ∧
      ∀ id, id ∈ (setActiveVisualizers s vs).1.visualizers.map Prod.fst ↔
        id ∈ vs.map Visualizer.id) ∧
    (∀ e ∈ s.visualizers, (e : String × Visualizer).2.id ∉
        vs.map Visualizer.id →
      VisualizerEvent.dispose e.2.id ∈ (setActiveVisualizers s vs).2 ∧
        e.1 ∉ (setActiveVisualizers s vs).1.visualizers.map Prod.fst) ∧
    (∀ v ∈ vs,
      VisualizerEvent.setScene (v : Visualizer).id s.scene ∈
        (setActiveVisualizers s vs).2 ∧
      VisualizerEvent.onResize v.id s.width s.height ∈
        (setActiveVisualizers s vs).2 ∧
      VisualizerEvent.onPointPositionsChanged v.id s.positions ∈
        (setActiveVisualizers s vs).2) := by
  have hkept : ∀ id, id ∈ ((s.visualizers.filter fun e =>
      decide (e.2.id ∈ vs.map Visualizer.id)).map Prod.fst) →
      id ∈ vs.map Visualizer.id := by
    intro id hid
    rcases List.mem_map.mp hid with ⟨e, he, rfl⟩
    rcases List.mem_filter.mp he with ⟨hes, hcond⟩
    rw [← hkeys e hes]
    exact of_decide_eq_true hcond
  have hmemiff : ∀ id,
      id ∈ (setActiveVisualizers s vs).1.visualizers.map Prod.fst ↔
        id ∈ vs.map Visualizer.id := by
    intro id
    unfold setActiveVisualizers
    rw [mem_keys_addVisualizers]
    constructor
    · rintro (h | h)
      · exact hkept id h
      · exact h
    · exact Or.inr
  refine ⟨⟨?_, hmemiff⟩, ?_, ?_⟩
  · unfold setActiveVisualizers
    refine addVisualizers_keys_nodup s vs _ _ ?_
    exact hnodup.sublist (List.Sublist.map _ (List.filter_sublist _))
  · intro e hes hid
    constructor
    · unfold setActiveVisualizers
      refine addVisualizers_events_mono s vs _ _ _ ?_
      refine List.mem_map.mpr ⟨e, ?_, rfl⟩
      exact List.mem_filter.mpr ⟨hes, decide_eq_true hid⟩
    · rw [hmemiff, ← hkeys e hes]
      exact hid
  · intro v hv
    unfold setActiveVisualizers
    exact addVisualizers_events_of_mem s vs v hv _ _

/-- Witness for C9: one previously active visualizer with id "A" replaced
by a new visualizer with id "B". -/
theorem setActiveVisualizers_diff_witness :
    ((([("A", Visualizer.mk "A" 0)].map Prod.fst).Nodup ∧
      ∀ e ∈ [("A", Visualizer.mk "A" 0)],
        (e : String × Visualizer).2.id = e.1)) ∧
    (((setActiveVisualizers ⟨[("A", Visualizer.mk "A" 0)], 7, 4, 3, [1, 2, 3]⟩
        [Visualizer.mk "B" 1]).1.visualizers.map Prod.fst).Nodup ∧
      ∀ id, id ∈ (setActiveVisualizers
          ⟨[("A", Visualizer.mk "A" 0)], 7, 4, 3, [1, 2, 3]⟩
          [Visualizer.mk "B" 1]).1.visualizers.map Prod.fst ↔
        id ∈ [Visualizer.mk "B" 1].map Visualizer.id) := by
  have h := setActiveVisualizers_diff
    ⟨[("A", Visualizer.mk "A" 0)], 7, 4, 3, [1, 2, 3]⟩ [Visualizer.mk "B" 1]
    (by decide) (by decide)
  exact ⟨⟨by decide, by decide⟩, h.1⟩

/-! ### Theorems: claim C5 -/

theorem boxesIntersect_self (b : LabelBoundingBox) (h : b.wellFormed) :
    boxesIntersect b b :=
  ⟨h.1, h.1, h.2, h.2⟩

theorem mem_cellRangeX (g : CollisionGrid) (b : LabelBoundingBox) (i : ℤ) :
    i ∈ cellRangeX g b ↔ (b.loX / g.cellWidth).floor ≤ i ∧
      i ≤ (b.hiX / g.cellWidth).floor := by
  unfold cellRangeX
  simp only [List.mem_map, List.mem_range]
  constructor
  · rintro ⟨k, hk, rfl⟩
    omega
  · rintro ⟨h1, h2⟩
    exact ⟨(i - (b.loX / g.cellWidth).floor).toNat, by omega, by omega⟩

theorem mem_cellRangeY (g : CollisionGrid) (b : LabelBoundingBox) (j : ℤ) :
    j ∈ cellRangeY g b ↔ (b.loY / g.cellHeight).floor ≤ j ∧
      j ≤ (b.hiY / g.cellHeight).floor := by
  unfold cellRangeY
  simp only [List.mem_map, List.mem_range]
  constructor
  · rintro ⟨k, hk, rfl⟩
    omega
  · rintro ⟨h1, h2⟩
    exact ⟨(j - (b.loY / g.cellHeight).floor).toNat, by omega, by omega⟩

theorem mem_overlappingCells (g : CollisionGrid) (b : LabelBoundingBox)
    (i j : ℤ) :
    (i, j) ∈ overlappingCells g b ↔ i ∈ cellRangeX g b ∧ j ∈ cellRangeY g b := by
  unfold overlappingCells
  exact List.mem_product

theorem rat_floor_div_mono {a b c : ℚ} (h : a ≤ b) (hc : 0 < c) :
    (a / c).floor ≤ (b / c).floor := by
  rw [rat_floor_eq_floor, rat_floor_eq_floor]
  apply Int.floor_le_floor
  gcongr

theorem overlappingCells_inter (g : CollisionGrid) (hcw : 0 < g.cellWidth)
    (hch : 0 < g.cellHeight) (a b : LabelBoundingBox)
    (ha : a.wellFormed) (hb : b.wellFormed) (hint : boxesIntersect a b) :
    ∃ ij, ij ∈ overlappingCells g a ∧ ij ∈ overlappingCells g b := by
  obtain ⟨h1, h2, h3, h4⟩ := hint
  obtain ⟨ha1, ha2⟩ := ha
  obtain ⟨hb1, hb2⟩ := hb
  refine ⟨((max a.loX b.loX / g.cellWidth).floor,
    (max a.loY b.loY / g.cellHeight).floor), ?_, ?_⟩ <;>
    rw [mem_overlappingCells, mem_cellRangeX, mem_cellRangeY]
  · exact ⟨⟨rat_floor_div_mono (le_max_left _ _) hcw,
      rat_floor_div_mono (max_le ha1 h2) hcw⟩,
      rat_floor_div_mono (le_max_left _ _) hch,
      rat_floor_div_mono (max_le ha2 h4) hch⟩
  · exact ⟨⟨rat_floor_div_mono (le_max_right _ _) hcw,
      rat_floor_div_mono (max_le h1 hb1) hcw⟩,
      rat_floor_div_mono (le_max_right _ _) hch,
      rat_floor_div_mono (max_le h3 hb2) hch⟩

theorem insert_conflict (g : CollisionGrid) (acc : List LabelBoundingBox)
    (b : LabelBoundingBox) (hcw : 0 < g.cellWidth) (hch : 0 < g.cellHeight)
    (hok : gridOK g acc) (hbwf : b.wellFormed)
    (hc : ∃ c ∈ acc, boxesIntersect c b) :
    g.insert b false = (false, g) := by
  obtain ⟨c, hcacc, hcb⟩ := hc
  obtain ⟨hcwf, hreg⟩ := hok.2.1 c hcacc
  obtain ⟨ij, hija, hijb⟩ := overlappingCells_inter g hcw hch c b hcwf hbwf hcb
  unfold CollisionGrid.insert
  rw [if_pos]
  exact List.any_eq_true.mpr ⟨ij, hijb,
    List.any_eq_true.mpr ⟨c, hreg ij hija, decide_eq_true hcb⟩⟩

theorem insert_true_no_conflict (g : CollisionGrid) (b : LabelBoundingBox)
    (h : (g.insert b false).1 = true) :
    ∀ ij ∈ overlappingCells g b, ∀ c ∈ g.cells ij, ¬ boxesIntersect c b := by
  intro ij hij c hc hint
  have hcond : ((overlappingCells g b).any fun ij =>
      (g.cells ij).any fun c => decide (boxesIntersect c b)) = true :=
    List.any_eq_true.mpr ⟨ij, hij,
      List.any_eq_true.mpr ⟨c, hc, decide_eq_true hint⟩⟩
  unfold CollisionGrid.insert at h
  rw [if_pos hcond] at h
  cases h

theorem insert_commit_eq (g : CollisionGrid) (b : LabelBoundingBox)
    (h : (g.insert b false).1 = true) :
    (g.insert b false).2 = { g with cells := fun ij =>
      if ij ∈ (overlappingCells g b) then b :: g.cells ij else g.cells ij } := by
  unfold CollisionGrid.insert at h ⊢
  by_cases hcond : ((overlappingCells g b).any fun ij =>
      (g.cells ij).any fun c => decide (boxesIntersect c b)) = true
  · rw [if_pos hcond] at h
    cases h
  · rw [if_neg hcond]
    rfl

theorem insert_fail_eq (g : CollisionGrid) (b : LabelBoundingBox)
    (h : (g.insert b false).1 = false) : (g.insert b false).2 = g := by
  unfold CollisionGrid.insert at h ⊢
  by_cases hcond : ((overlappingCells g b).any fun ij =>
      (g.cells ij).any fun c => decide (boxesIntersect c b)) = true
  · rw [if_pos hcond]
  · rw [if_neg hcond] at h
    cases h

theorem overlappingCells_congr (g g' : CollisionGrid)
    (hw : g'.cellWidth = g.cellWidth) (hh : g'.cellHeight = g.cellHeight)
    (b : LabelBoundingBox) : overlappingCells g' b = overlappingCells g b := by
  unfold overlappingCells cellRangeX cellRangeY
  rw [hw, hh]

theorem insert_commit_ok (g : CollisionGrid) (acc : List LabelBoundingBox)
    (b : LabelBoundingBox) (hcw : 0 < g.cellWidth) (hch : 0 < g.cellHeight)
    (hok : gridOK g acc) (hbwf : b.wellFormed) (hwfacc : ∀ x ∈ acc, LabelBoundingBox.wellFormed x)
    (h : (g.insert b false).1 = true) :
    gridOK (g.insert b false).2 (acc ++ [b]) := by
  have hno := insert_true_no_conflict g b h
  have hnotint : ∀ a ∈ acc, ¬ boxesIntersect a b := by
    intro a haacc hint
    obtain ⟨ij, hija, hijb⟩ :=
      overlappingCells_inter g hcw hch a b (hwfacc a haacc) hbwf hint
    exact hno ij hijb a ((hok.2.1 a haacc).2 ij hija) hint
  rw [insert_commit_eq g b h]
  refine ⟨?_, ?_, ?_⟩
  · intro ij c hc
    by_cases hij : ij ∈ overlappingCells g b
    · simp only [hij, if_pos] at hc
      rcases List.mem_cons.mp hc with rfl | hold
      · simp
      · exact List.mem_append_left _ (hok.1 ij c hold)
    · simp only [hij, if_neg, not_false_iff] at hc
      exact List.mem_append_left _ (hok.1 ij c hc)
  · intro c hcmem
    have hcells : overlappingCells { g with cells := fun ij =>
        if ij ∈ (overlappingCells g b) then b :: g.cells ij else g.cells ij } c =
        overlappingCells g c := overlappingCells_congr g _ rfl rfl c
    rcases List.mem_append.mp hcmem with hcacc | hcb
    · refine ⟨(hok.2.1 c hcacc).1, ?_⟩
      intro ij hij
      rw [hcells] at hij
      have hold := (hok.2.1 c hcacc).2 ij hij
      by_cases hijb : ij ∈ overlappingCells g b
      · simp only [hijb, if_pos]
        exact List.mem_cons_of_mem _ hold
      · simp only [hijb, if_neg, not_false_iff]
        exact hold
    · rcases List.mem_singleton.mp hcb with rfl
      refine ⟨hbwf, ?_⟩
      intro ij hij
      rw [hcells] at hij
      simp only [hij, if_pos]
      exact List.mem_cons_self _ _
  · rw [List.pairwise_append]
    exact ⟨hok.2.2, List.pairwise_singleton _ _, by
      intro a haacc c hcb
      rcases List.mem_singleton.mp hcb with rfl
      exact hnotint a haacc⟩

theorem insert_cellWidth (g : CollisionGrid) (b : LabelBoundingBox)
    (t : Bool) : ((g.insert b t).2).cellWidth = g.cellWidth := by
  unfold CollisionGrid.insert
  by_cases hcond : ((overlappingCells g b).any fun ij =>
      (g.cells ij).any fun c => decide (boxesIntersect c b)) = true
  · rw [if_pos hcond]
  · rw [if_neg hcond]
    cases t <;> rfl

theorem insert_cellHeight (g : CollisionGrid) (b : LabelBoundingBox)
    (t : Bool) : ((g.insert b t).2).cellHeight = g.cellHeight := by
  unfold CollisionGrid.insert
  by_cases hcond : ((overlappingCells g b).any fun ij =>
      (g.cells ij).any fun c => decide (boxesIntersect c b)) = true
  · rw [if_pos hcond]
  · rw [if_neg hcond]
    cases t <;> rfl

theorem runInserts_cons (g : CollisionGrid) (b : LabelBoundingBox)
    (rest : List LabelBoundingBox) :
    runInserts g (b :: rest) =
      ((runInserts (g.insert b false).2 rest).1,
        (b, (g.insert b false).1) ::
          (runInserts (g.insert b false).2 rest).2) := rfl

theorem acceptedBoxes_cons_true (b : LabelBoundingBox)
    (l : List (LabelBoundingBox × Bool)) :
    acceptedBoxes ((b, true) :: l) = b :: acceptedBoxes l := by
  simp [acceptedBoxes]

theorem acceptedBoxes_cons_false (b : LabelBoundingBox)
    (l : List (LabelBoundingBox × Bool)) :
    acceptedBoxes ((b, false) :: l) = acceptedBoxes l := by
  simp [acceptedBoxes]

theorem runInserts_ok (bs : List LabelBoundingBox) :
    ∀ (g : CollisionGrid) (acc : List LabelBoundingBox),
    0 < g.cellWidth → 0 < g.cellHeight → gridOK g acc →
    (∀ x ∈ acc, LabelBoundingBox.wellFormed x) →
    (∀ x ∈ bs, LabelBoundingBox.wellFormed x) →
    gridOK (runInserts g bs).1 (acc ++ acceptedBoxes (runInserts g bs).2) ∧
    (runInserts g bs).1.cellWidth = g.cellWidth ∧
    (runInserts g bs).1.cellHeight = g.cellHeight := by
  induction bs with
  | nil =>
    intro g acc hcw hch hok hwfacc hwfbs
    refine ⟨?_, rfl, rfl⟩
    show gridOK g (acc ++ acceptedBoxes [])
    simpa [acceptedBoxes] using hok
  | cons b rest ih =>
    intro g acc hcw hch hok hwfacc hwfbs
    have hbwf := hwfbs b (List.mem_cons_self b rest)
    have hrest : ∀ x ∈ rest, LabelBoundingBox.wellFormed x :=
      fun x hx => hwfbs x (List.mem_cons_of_mem _ hx)
    rw [runInserts_cons]
    dsimp only
    cases hres : (g.insert b false).1 with
    | true =>
      have hok' := insert_commit_ok g acc b hcw hch hok hbwf hwfacc hres
      have hwf' : ∀ x ∈ acc ++ [b], LabelBoundingBox.wellFormed x := by
        intro x hx
        rcases List.mem_append.mp hx with h | h
        · exact hwfacc x h
        · rcases List.mem_singleton.mp h with rfl
          exact hbwf
      have hcw' : 0 < (g.insert b false).2.cellWidth := by
        rw [insert_cellWidth]
        exact hcw
      have hch' : 0 < (g.insert b false).2.cellHeight := by
        rw [insert_cellHeight]
        exact hch
      have IH := ih (g.insert b false).2 (acc ++ [b]) hcw' hch' hok' hwf' hrest
      refine ⟨?_, ?_, ?_⟩
      · rw [acceptedBoxes_cons_true, List.append_cons]
        exact IH.1
      · rw [IH.2.1, insert_cellWidth]
      · rw [IH.2.2, insert_cellHeight]
    | false =>
      have hgeq := insert_fail_eq g b hres
      rw [acceptedBoxes_cons_false, hgeq]
      exact ih g acc hcw hch hok hwfacc hrest

/-- C5: Collision Grid non-overlap and failure atomicity (modelled from the
spec, the grid's module not being among the sources).  Over any sequence of
commit-path inserts from an empty grid with positive cell sizes and genuine
rectangles: the accepted boxes are pairwise non-intersecting; a further
insert whose box intersects any accepted box returns `false` and leaves the
grid unchanged; in particular a box identical to an accepted box fails and
duplicates no state. -/
theorem collisionGrid_sound (cw ch : ℚ) (bs : List LabelBoundingBox)
    (b : LabelBoundingBox) (hcw : 0 < cw) (hch : 0 < ch)
    (hwf : ∀ x ∈ bs, LabelBoundingBox.wellFormed x)
    (hbwf : b.wellFormed) :
    List.Pairwise (fun a c => ¬ boxesIntersect a c)
      (acceptedBoxes (runInserts (emptyGrid cw ch) bs).2) ∧
    ((∃ c ∈ acceptedBoxes (runInserts (emptyGrid cw ch) bs).2,
        boxesIntersect c b) →
      (runInserts (emptyGrid cw ch) bs).1.insert b false =
        (false, (runInserts (emptyGrid cw ch) bs).1)) ∧
    (b ∈ acceptedBoxes (runInserts (emptyGrid cw ch) bs).2 →
      (runInserts (emptyGrid cw ch) bs).1.insert b false =
        (false, (runInserts (emptyGrid cw ch) bs).1)) := by
  have hempty : gridOK (emptyGrid cw ch) [] := by
    refine ⟨?_, ?_, List.Pairwise.nil⟩
    · intro ij c hc
      cases hc
    · intro c hc
      cases hc
  have H := runInserts_ok bs (emptyGrid cw ch) [] hcw hch hempty
    (by intro x hx; cases hx) hwf
  rw [List.nil_append] at H
  have hfcw : 0 < (runInserts (emptyGrid cw ch) bs).1.cellWidth := by
    rw [H.2.1]
    exact hcw
  have hfch : 0 < (runInserts (emptyGrid cw ch) bs).1.cellHeight := by
    rw [H.2.2]
    exact hch
  refine ⟨H.1.2.2, ?_, ?_⟩
  · intro hc
    exact insert_conflict _ _ b hfcw hfch H.1 hbwf hc
  · intro hmem
    exact insert_conflict _ _ b hfcw hfch H.1 hbwf
      ⟨b, hmem, boxesIntersect_self b hbwf⟩

/-- Witness for C5: two overlapping unit-cell boxes; the second insert must
fail, and re-inserting the first box must fail. -/
theorem collisionGrid_sound_witness :
    (0 < (10 : ℚ) ∧ 0 < (10 : ℚ) ∧
      (∀ x ∈ [LabelBoundingBox.mk 0 5 0 5, LabelBoundingBox.mk 3 8 0 5],
        LabelBoundingBox.wellFormed x) ∧
      (LabelBoundingBox.mk 0 5 0 5).wellFormed) ∧
    List.Pairwise (fun a c => ¬ boxesIntersect a c)
      (acceptedBoxes (runInserts (emptyGrid 10 10)
        [LabelBoundingBox.mk 0 5 0 5, LabelBoundingBox.mk 3 8 0 5]).2) ∧
    ((∃ c ∈ acceptedBoxes (runInserts (emptyGrid 10 10)
        [LabelBoundingBox.mk 0 5 0 5, LabelBoundingBox.mk 3 8 0 5]).2,
        boxesIntersect c (LabelBoundingBox.mk 0 5 0 5)) →
      (runInserts (emptyGrid 10 10)
        [LabelBoundingBox.mk 0 5 0 5, LabelBoundingBox.mk 3 8 0 5]).1.insert
          (LabelBoundingBox.mk 0 5 0 5) false =
      (false, (runInserts (emptyGrid 10 10)
        [LabelBoundingBox.mk 0 5 0 5, LabelBoundingBox.mk 3 8 0 5]).1)) ∧
    ((LabelBoundingBox.mk 0 5 0 5) ∈ acceptedBoxes (runInserts (emptyGrid 10 10)
        [LabelBoundingBox.mk 0 5 0 5, LabelBoundingBox.mk 3 8 0 5]).2 →
      (runInserts (emptyGrid 10 10)
        [LabelBoundingBox.mk 0 5 0 5, LabelBoundingBox.mk 3 8 0 5]).1.insert
          (LabelBoundingBox.mk 0 5 0 5) false =
      (false, (runInserts (emptyGrid 10 10)
        [LabelBoundingBox.mk 0 5 0 5, LabelBoundingBox.mk 3 8 0 5]).1)) := by
  have hwf : ∀ x ∈ [LabelBoundingBox.mk 0 5 0 5, LabelBoundingBox.mk 3 8 0 5],
      LabelBoundingBox.wellFormed x := by
    intro x hx
    rcases List.mem_cons.mp hx with rfl | hx2
    · exact ⟨by norm_num, by norm_num⟩
    · rcases List.mem_singleton.mp hx2 with rfl
      exact ⟨by norm_num, by norm_num⟩
  have hbwf : (LabelBoundingBox.mk 0 5 0 5).wellFormed :=
    ⟨by norm_num, by norm_num⟩
  have h := collisionGrid_sound 10 10
    [LabelBoundingBox.mk 0 5 0 5, LabelBoundingBox.mk 3 8 0 5]
    (LabelBoundingBox.mk 0 5 0 5) (by norm_num) (by norm_num) hwf hbwf
  exact ⟨⟨by norm_num, by norm_num, hwf, hbwf⟩, h.1, h.2.1, h.2.2⟩

/-! ### Theorems: claim C3 -/

theorem cex_proj0 : projectedPixel cexState 0 = some (11/2, 7) := by
  unfold projectedPixel cexState
  norm_num

theorem cex_proj1 : projectedPixel cexState 1 = none := by
  unfold projectedPixel cexState
  norm_num

theorem cex_in_inner : inSelectionBox cexState ⟨5, 10, 0, 5⟩ 0 = true := by
  unfold inSelectionBox
  rw [cex_proj0]
  norm_num [selX, selY, selW, selH, PickState.dpr, cexState, Rat.floor_def']

theorem cex_proj2 : projectedPixel cexState 2 = none := by
  unfold projectedPixel cexState
  norm_num

theorem cex_out_outer : inSelectionBox cexState ⟨0, 10, 5, 5⟩ 0 = false := by
  unfold inSelectionBox
  rw [cex_proj0]
  norm_num [selX, selY, selW, selH, PickState.dpr, cexState, Rat.floor_def']

theorem cex_inner_result :
    getPointIndicesFromBoundingBox cexState ⟨5, 10, 0, 5⟩ = [0] := by
  unfold getPointIndicesFromBoundingBox
  rw [if_neg]
  · have hlen : cexState.positions.length = 3 := by decide
    rw [hlen]
    have hr : List.range 3 = [0, 1, 2] := rfl
    rw [hr]
    simp [List.filter, cex_in_inner,
      (by unfold inSelectionBox; rw [cex_proj1] :
        inSelectionBox cexState ⟨5, 10, 0, 5⟩ 1 = false),
      (by unfold inSelectionBox; rw [cex_proj2] :
        inSelectionBox cexState ⟨5, 10, 0, 5⟩ 2 = false)]
  · intro h
    have := h.2
    norm_num [selH, PickState.dpr, cexState, Rat.floor_def'] at this

theorem cex_outer_result :
    getPointIndicesFromBoundingBox cexState ⟨0, 10, 5, 5⟩ = [] := by
  unfold getPointIndicesFromBoundingBox
  rw [if_neg]
  · have hlen : cexState.positions.length = 3 := by decide
    rw [hlen]
    have hr : List.range 3 = [0, 1, 2] := rfl
    rw [hr]
    simp [List.filter, cex_out_outer,
      (by unfold inSelectionBox; rw [cex_proj1] :
        inSelectionBox cexState ⟨0, 10, 5, 5⟩ 1 = false),
      (by unfold inSelectionBox; rw [cex_proj2] :
        inSelectionBox cexState ⟨0, 10, 5, 5⟩ 2 = false)]
  · intro h
    have := h.1
    norm_num [selW, PickState.dpr, cexState, Rat.floor_def'] at this

theorem rectangle_monotonicity_counterexample :
    boxContainedIn ⟨5, 10, 0, 5⟩ ⟨0, 10, 5, 5⟩ ∧
    ¬(∀ i ∈ getPointIndicesFromBoundingBox cexState ⟨5, 10, 0, 5⟩,
        i ∈ getPointIndicesFromBoundingBox cexState ⟨0, 10, 5, 5⟩) := by
  constructor
  · unfold boxContainedIn
    norm_num
  · intro h
    have h0 := h 0 (by rw [cex_inner_result]; exact List.mem_singleton_self 0)
    rw [cex_outer_result] at h0
    cases h0

theorem selW_pos (s : PickState) (b : ScatterBoundingBox) : 1 ≤ selW s b :=
  le_max_right _ _

theorem selH_pos (s : PickState) (b : ScatterBoundingBox) : 1 ≤ selH s b :=
  le_max_right _ _

theorem mem_pickedIds_exists (s : PickState) (b : ScatterBoundingBox)
    (id : ℕ) :
    id ∈ pickedIds s b ↔ ∃ k : ℕ, k < (selW s b * selH s b).toNat ∧
      readPixelId s b k = id ∧ id ≠ backgroundPickingId ∧
      (id : ℚ) < s.pointCount := by
  unfold pickedIds
  rw [List.mem_filterMap]
  constructor
  · rintro ⟨k, hk, hsome⟩
    rw [List.mem_range] at hk
    dsimp only at hsome
    split at hsome
    · next hcond =>
      injection hsome with h
      subst h
      exact ⟨k, hk, rfl, hcond.1, hcond.2⟩
    · cases hsome
  · rintro ⟨k, hk, rfl, hbg, hlt⟩
    refine ⟨k, List.mem_range.mpr hk, ?_⟩
    dsimp only
    rw [if_pos ⟨hbg, hlt⟩]

theorem exists_pixel_index (W H : ℤ) (hW : 1 ≤ W) (a bq : ℤ)
    (ha : 0 ≤ a) (ha2 : a < W) (hb : 0 ≤ bq) (hb2 : bq < H) :
    ∃ k : ℕ, k < (W * H).toNat ∧ (k : ℤ) % W = a ∧ (k : ℤ) / W = bq := by
  have hnn : 0 ≤ a + W * bq := by
    have : 0 ≤ W * bq := mul_nonneg (by omega) hb
    omega
  have hcast : ((a + W * bq).toNat : ℤ) = a + W * bq := Int.toNat_of_nonneg hnn
  refine ⟨(a + W * bq).toNat, ?_, ?_, ?_⟩
  · have h1 : W * bq ≤ W * (H - 1) := mul_le_mul_of_nonneg_left (by omega) (by omega)
    have h2 : W * (H - 1) = W * H - W := by ring
    omega
  · rw [hcast, Int.add_mul_emod_self_left, Int.emod_eq_of_lt ha ha2]
  · rw [hcast, Int.add_mul_ediv_left _ _ (by omega : W ≠ 0),
      Int.ediv_eq_zero_of_lt ha ha2, zero_add]

theorem pickedIds_subset_of_nested (s : PickState)
    (inner outer : ScatterBoundingBox)
    (hnest : devIntervalsNested s inner outer) :
    ∀ id, id ∈ pickedIds s inner → id ∈ pickedIds s outer := by
  intro id hid
  rw [mem_pickedIds_exists] at hid ⊢
  obtain ⟨k, hk, hread, hbg, hlt⟩ := hid
  obtain ⟨hx1, hx2, hy1, hy2⟩ := hnest
  have hWi := selW_pos s inner
  have hHi := selH_pos s inner
  have hWo := selW_pos s outer
  have hHo := selH_pos s outer
  have hka : 0 ≤ (k : ℤ) % selW s inner := Int.emod_nonneg _ (by omega)
  have hka2 : (k : ℤ) % selW s inner < selW s inner :=
    Int.emod_lt_of_pos _ (by omega)
  have hkb : 0 ≤ (k : ℤ) / selW s inner :=
    Int.ediv_nonneg (by positivity) (by omega)
  have hkz : (k : ℤ) < selW s inner * selH s inner := by omega
  have hkb2 : (k : ℤ) / selW s inner < selH s inner :=
    (Int.ediv_lt_iff_lt_mul (by omega)).mpr (by rw [mul_comm] at hkz; exact hkz)
  obtain ⟨k₂, hk₂, ha₂, hb₂⟩ := exists_pixel_index (selW s outer)
    (selH s outer) (by omega)
    (selX s inner + (k : ℤ) % selW s inner - selX s outer)
    ((selY s outer - selY s inner) + (k : ℤ) / selW s inner)
    (by omega) (by omega) (by omega) (by omega)
  refine ⟨k₂, hk₂, ?_, hbg, hlt⟩
  unfold readPixelId at hread ⊢
  rw [ha₂, hb₂]
  have hc : selX s outer +
      (selX s inner + (k : ℤ) % selW s inner - selX s outer) =
      selX s inner + (k : ℤ) % selW s inner := by ring
  have hr : s.pickingTextureHeight - selY s outer +
      ((selY s outer - selY s inner) + (k : ℤ) / selW s inner) =
      s.pickingTextureHeight - selY s inner + (k : ℤ) / selW s inner := by ring
  rw [hc, hr]
  exact hread

theorem pickedIds_projected (s : PickState) (b : ScatterBoundingBox) (id : ℕ)
    (hcons : pickingConsistent s) (h : id ∈ pickedIds s b) :
    ∃ p, projectedPixel s id = some p ∧
      ((selX s b : ℤ) : ℚ) ≤ p.1 ∧
      p.1 < ((selX s b + selW s b : ℤ) : ℚ) ∧
      ((selY s b - selH s b : ℤ) : ℚ) ≤ p.2 ∧
      p.2 < ((selY s b : ℤ) : ℚ) := by
  rw [mem_pickedIds_exists] at h
  obtain ⟨k, hk, hread, hbg, hlt⟩ := h
  have hW := selW_pos s b
  have hH := selH_pos s b
  have hka : 0 ≤ (k : ℤ) % selW s b := Int.emod_nonneg _ (by omega)
  have hka2 : (k : ℤ) % selW s b < selW s b := Int.emod_lt_of_pos _ (by omega)
  have hkb : 0 ≤ (k : ℤ) / selW s b := Int.ediv_nonneg (by positivity) (by omega)
  have hkz : (k : ℤ) < selW s b * selH s b := by omega
  have hkb2 : (k : ℤ) / selW s b < selH s b :=
    (Int.ediv_lt_iff_lt_mul (by omega)).mpr (by rw [mul_comm] at hkz; exact hkz)
  unfold readPixelId at hread
  have hcons' := hcons (selX s b + (k : ℤ) % selW s b)
    (s.pickingTextureHeight - selY s b + (k : ℤ) / selW s b)
  rw [hread] at hcons'
  obtain ⟨p, hp, hpc1, hpc2, hpr1, hpr2⟩ := hcons' hbg hlt
  refine ⟨p, hp, ?_, ?_, ?_, ?_⟩
  · have hle : (selX s b : ℤ) ≤ selX s b + (k : ℤ) % selW s b := by omega
    calc ((selX s b : ℤ) : ℚ) ≤
        ((selX s b + (k : ℤ) % selW s b : ℤ) : ℚ) := by exact_mod_cast hle
      _ ≤ p.1 := hpc1
  · have hle : selX s b + (k : ℤ) % selW s b + 1 ≤ selX s b + selW s b := by
      omega
    have hle2 : ((selX s b + (k : ℤ) % selW s b : ℤ) : ℚ) + 1 ≤
        ((selX s b + selW s b : ℤ) : ℚ) := by exact_mod_cast hle
    linarith
  · have hle : selY s b - selH s b ≤ s.pickingTextureHeight - 1 -
        (s.pickingTextureHeight - selY s b + (k : ℤ) / selW s b) := by omega
    have hle2 : ((selY s b - selH s b : ℤ) : ℚ) ≤
        ((s.pickingTextureHeight - 1 -
          (s.pickingTextureHeight - selY s b + (k : ℤ) / selW s b) : ℤ) : ℚ) :=
      by exact_mod_cast hle
    linarith
  · have hle : s.pickingTextureHeight -
        (s.pickingTextureHeight - selY s b + (k : ℤ) / selW s b) ≤
        selY s b := by omega
    have hle2 : ((s.pickingTextureHeight -
        (s.pickingTextureHeight - selY s b + (k : ℤ) / selW s b) : ℤ) : ℚ) ≤
        ((selY s b : ℤ) : ℚ) := by exact_mod_cast hle
    linarith

theorem rectangle_monotonicity_amended (s : PickState)
    (inner outer : ScatterBoundingBox)
    (hnest : devIntervalsNested s inner outer)
    (hcons : pickingConsistent s) :
    ∀ i ∈ getPointIndicesFromBoundingBox s inner,
      i ∈ getPointIndicesFromBoundingBox s outer := by
  intro i hi
  obtain ⟨hx1, hx2, hy1, hy2⟩ := hnest
  by_cases hsI : selW s inner ≤ 2 ∧ selH s inner ≤ 2
  · unfold getPointIndicesFromBoundingBox at hi
    rw [if_pos hsI] at hi
    rcases (mem_pickingTexture_result s inner i).mp hi with ⟨hilen, hpick⟩
    by_cases hsO : selW s outer ≤ 2 ∧ selH s outer ≤ 2
    · unfold getPointIndicesFromBoundingBox
      rw [if_pos hsO]
      exact (mem_pickingTexture_result s outer i).mpr
        ⟨hilen, pickedIds_subset_of_nested s inner outer
          ⟨hx1, hx2, hy1, hy2⟩ i hpick⟩
    · unfold getPointIndicesFromBoundingBox
      rw [if_neg hsO]
      obtain ⟨p, hp, h1, h2, h3, h4⟩ :=
        pickedIds_projected s inner i hcons hpick
      refine List.mem_filter.mpr ⟨List.mem_range.mpr hilen, ?_⟩
      unfold inSelectionBox
      rw [hp]
      simp only [Bool.and_eq_true, decide_eq_true_eq]
      have cx1 : ((selX s outer : ℤ) : ℚ) ≤ ((selX s inner : ℤ) : ℚ) := by
        exact_mod_cast hx1
      have cx2 : ((selX s inner + selW s inner : ℤ) : ℚ) ≤
          ((selX s outer + selW s outer : ℤ) : ℚ) := by exact_mod_cast hx2
      have cy1 : ((selY s inner : ℤ) : ℚ) ≤ ((selY s outer : ℤ) : ℚ) := by
        exact_mod_cast hy1
      have cy2 : ((selY s outer - selH s outer : ℤ) : ℚ) ≤
          ((selY s inner - selH s inner : ℤ) : ℚ) := by exact_mod_cast hy2
      exact ⟨⟨⟨by linarith, by linarith⟩, by linarith⟩, by linarith⟩
  · by_cases hsO : selW s outer ≤ 2 ∧ selH s outer ≤ 2
    · exfalso
      exact hsI ⟨by omega, by omega⟩
    · unfold getPointIndicesFromBoundingBox at hi ⊢
      rw [if_neg hsI] at hi
      rw [if_neg hsO]
      rcases List.mem_filter.mp hi with ⟨hr, hbox⟩
      refine List.mem_filter.mpr ⟨hr, ?_⟩
      unfold inSelectionBox at hbox ⊢
      cases hp : projectedPixel s i with
      | none =>
        rw [hp] at hbox
        simp at hbox
      | some p =>
        rw [hp] at hbox
        simp only [Bool.and_eq_true, decide_eq_true_eq] at hbox ⊢
        obtain ⟨⟨⟨hA, hB⟩, hC⟩, hD⟩ := hbox
        have cx1 : ((selX s outer : ℤ) : ℚ) ≤ ((selX s inner : ℤ) : ℚ) := by
          exact_mod_cast hx1
        have cx2 : ((selX s inner + selW s inner : ℤ) : ℚ) ≤
            ((selX s outer + selW s outer : ℤ) : ℚ) := by exact_mod_cast hx2
        have cy1 : ((selY s inner : ℤ) : ℚ) ≤ ((selY s outer : ℤ) : ℚ) := by
          exact_mod_cast hy1
        have cy2 : ((selY s outer - selH s outer : ℤ) : ℚ) ≤
            ((selY s inner - selH s inner : ℤ) : ℚ) := by exact_mod_cast hy2
        exact ⟨⟨⟨by linarith, by linarith⟩, by linarith⟩, by linarith⟩

theorem rectangle_monotonicity_amended_witness :
    devIntervalsNested cexState ⟨1, 9, 3, 3⟩ ⟨0, 10, 5, 5⟩ ∧
    pickingConsistent cexState ∧
    ∀ i ∈ getPointIndicesFromBoundingBox cexState ⟨1, 9, 3, 3⟩,
      i ∈ getPointIndicesFromBoundingBox cexState ⟨0, 10, 5, 5⟩ := by
  have hnest : devIntervalsNested cexState ⟨1, 9, 3, 3⟩ ⟨0, 10, 5, 5⟩ := by
    unfold devIntervalsNested
    norm_num [selX, selY, selW, selH, PickState.dpr, cexState, Rat.floor_def']
  have hcons : pickingConsistent cexState := by
    intro c r hbg
    have hb : decodeRgba (cexState.pixelAt c r) = backgroundPickingId := by
      show decodePixelId 255 255 255 = backgroundPickingId
      rw [decodePixelId_eq_add 255 (by norm_num) (by norm_num)]
      norm_num [backgroundPickingId]
    exact absurd hb hbg
  exact ⟨hnest, hcons,
    rectangle_monotonicity_amended cexState _ _ hnest hcons⟩
